import Mathlib

/-!
Verification of the chunked asset-upload orchestrator of Project Chronos
(frontend component `VideoUploader`, file `frontend/app/page.tsx`).

The development shallow-embeds the three parts of the component:
* the chunk planner inside `uploadFile` (loop over `totalChunks` producing
  byte ranges `[i*CHUNK_SIZE, min(i*CHUNK_SIZE + CHUNK_SIZE, file.size))`),
* the upload orchestrator `uploadFile` (session initialization, per-part
  target negotiation, concurrent part transfers settling in an arbitrary
  completion order, progress aggregation, commit request), and
* the job-status poller (the `useEffect` interval handler over
  `/api/upload/status`), plus the `handleFile` validation.

Machine sizes are modelled as `Nat` (JavaScript file sizes are exact
integers below 2^53 here); the percentage-progress value, computed in the
source as `prev + (1 / totalChunks) * 100`, is modelled over `ℚ`.
-/

namespace Chronos

/-- The fixed chunk size: `const CHUNK_SIZE = 5 * 1024 * 1024` (5 MiB). -/
def CHUNK_SIZE : Nat := 5 * 1024 * 1024

/-- `const totalChunks = Math.ceil(file.size / CHUNK_SIZE)`; for natural
`size` this is the ceiling division `(size + CHUNK_SIZE - 1) / CHUNK_SIZE`. -/
def totalChunks (size : Nat) : Nat := (size + CHUNK_SIZE - 1) / CHUNK_SIZE

/-- One part of the chunk plan: the loop body computes
`start = i * CHUNK_SIZE`, `end = Math.min(start + CHUNK_SIZE, file.size)`,
`partNumber = i + 1`.  The field `stop` models the source's `end` (a
reserved word in Lean). -/
structure PartDescriptor where
  partNumber : Nat
  start : Nat
  stop : Nat
  deriving DecidableEq, Repr

/-- Default descriptor used with `List.getD`. -/
def dfltPart : PartDescriptor := ⟨0, 0, 0⟩

/-- The chunk plan produced by the `for (let i = 0; i < totalChunks; i++)`
loop in `uploadFile`: part `i` (0-based) covers
`[i*CHUNK_SIZE, min(i*CHUNK_SIZE + CHUNK_SIZE, size))` with 1-based
`partNumber = i + 1`. -/
def chunkPlan (size : Nat) : List PartDescriptor :=
  (List.range (totalChunks size)).map
    (fun i => ⟨i + 1, i * CHUNK_SIZE, min (i * CHUNK_SIZE + CHUNK_SIZE) size⟩)

lemma chunkSize_pos : 0 < CHUNK_SIZE := by norm_num [CHUNK_SIZE]

lemma lt_totalChunks_iff (L i : Nat) : i < totalChunks L ↔ i * CHUNK_SIZE < L := by
  have hC := chunkSize_pos
  unfold totalChunks
  rw [Nat.lt_iff_add_one_le, Nat.le_div_iff_mul_le chunkSize_pos, Nat.add_mul, Nat.one_mul]
  generalize i * CHUNK_SIZE = m
  omega

lemma le_mul_totalChunks (L : Nat) : L ≤ totalChunks L * CHUNK_SIZE := by
  by_contra h
  push_neg at h
  exact lt_irrefl _ ((lt_totalChunks_iff L (totalChunks L)).mpr h)

lemma chunkPlan_length (L : Nat) : (chunkPlan L).length = totalChunks L := by
  simp [chunkPlan]

lemma chunkPlan_getD (L i : Nat) (hi : i < totalChunks L) :
    (chunkPlan L).getD i dfltPart =
      ⟨i + 1, i * CHUNK_SIZE, min (i * CHUNK_SIZE + CHUNK_SIZE) L⟩ := by
  have h1 : i < (chunkPlan L).length := by rw [chunkPlan_length]; exact hi
  rw [List.getD_eq_getElem _ _ h1]
  simp [chunkPlan]

lemma lt_div_succ_mul (b : Nat) : b < (b / CHUNK_SIZE) * CHUNK_SIZE + CHUNK_SIZE := by
  have h1 := Nat.div_add_mod b CHUNK_SIZE
  have h2 : b % CHUNK_SIZE < CHUNK_SIZE := Nat.mod_lt _ chunkSize_pos
  calc b = CHUNK_SIZE * (b / CHUNK_SIZE) + b % CHUNK_SIZE := h1.symm
    _ < CHUNK_SIZE * (b / CHUNK_SIZE) + CHUNK_SIZE := Nat.add_lt_add_left h2 _
    _ = (b / CHUNK_SIZE) * CHUNK_SIZE + CHUNK_SIZE := by rw [Nat.mul_comm]

/-- The full correctness property of the chunk plan for object length `L`:
`ceil(L/C)` parts, 1-based part numbers, ranges
`[i*C, min((i+1)*C, L))`, non-empty parts, contiguity, full-size
non-final parts, pairwise disjointness, exact cover of `[0, L)`, and the
final part ending at `L`. -/
def ChunkPlanOk (L : Nat) : Prop :=
  (chunkPlan L).length = (L + CHUNK_SIZE - 1) / CHUNK_SIZE ∧
  (∀ i, i < (chunkPlan L).length →
    (chunkPlan L).getD i dfltPart =
      ⟨i + 1, i * CHUNK_SIZE, min ((i + 1) * CHUNK_SIZE) L⟩ ∧
    ((chunkPlan L).getD i dfltPart).start < ((chunkPlan L).getD i dfltPart).stop ∧
    ((chunkPlan L).getD i dfltPart).stop ≤ L) ∧
  (∀ i, i + 1 < (chunkPlan L).length →
    ((chunkPlan L).getD i dfltPart).stop = ((chunkPlan L).getD (i + 1) dfltPart).start ∧
    ((chunkPlan L).getD i dfltPart).stop - ((chunkPlan L).getD i dfltPart).start
      = CHUNK_SIZE) ∧
  (∀ i j, i < j → j < (chunkPlan L).length →
    ((chunkPlan L).getD i dfltPart).stop ≤ ((chunkPlan L).getD j dfltPart).start) ∧
  (∀ b, b < L → ∃ i, i < (chunkPlan L).length ∧
    ((chunkPlan L).getD i dfltPart).start ≤ b ∧
    b < ((chunkPlan L).getD i dfltPart).stop) ∧
  (0 < (chunkPlan L).length →
    ((chunkPlan L).getD ((chunkPlan L).length - 1) dfltPart).stop = L)

/-- Claim C1: for every object length `L ≥ 1` and the fixed 5 MiB chunk
size, the chunk plan computed by `uploadFile` consists of exactly
`ceil(L/CHUNK_SIZE)` parts with 1-based sequence numbers, whose byte
ranges `[i*C, min((i+1)*C, L))` are contiguous, non-overlapping and
exactly cover `[0, L)`, and every part except possibly the last has
exactly `CHUNK_SIZE` bytes. -/
theorem chunkPlan_spec (L : Nat) (hL : 1 ≤ L) : ChunkPlanOk L := by
  have hC := chunkSize_pos
  have hlen : (chunkPlan L).length = totalChunks L := chunkPlan_length L
  refine ⟨hlen, ?_, ?_, ?_, ?_, ?_⟩
  · intro i hi
    rw [hlen] at hi
    have hstart : i * CHUNK_SIZE < L := (lt_totalChunks_iff L i).mp hi
    rw [chunkPlan_getD L i hi]
    refine ⟨?_, ?_, ?_⟩
    · have : i * CHUNK_SIZE + CHUNK_SIZE = (i + 1) * CHUNK_SIZE := by ring
      rw [this]
    · exact lt_min (Nat.lt_add_of_pos_right hC) hstart
    · exact min_le_right _ _
  · intro i hi
    rw [hlen] at hi
    have hi1 : i < totalChunks L := Nat.lt_of_succ_lt hi
    have hnext : (i + 1) * CHUNK_SIZE < L := (lt_totalChunks_iff L (i + 1)).mp hi
    have hfull : i * CHUNK_SIZE + CHUNK_SIZE ≤ L := by
      have : i * CHUNK_SIZE + CHUNK_SIZE = (i + 1) * CHUNK_SIZE := by ring
      rw [this]; exact le_of_lt hnext
    rw [chunkPlan_getD L i hi1, chunkPlan_getD L (i + 1) hi]
    constructor
    · simp only [min_eq_left hfull]
      ring
    · simp only [min_eq_left hfull]
      omega
  · intro i j hij hj
    rw [hlen] at hj
    have hi : i < totalChunks L := lt_trans hij hj
    rw [chunkPlan_getD L i hi, chunkPlan_getD L j hj]
    simp only
    calc min (i * CHUNK_SIZE + CHUNK_SIZE) L ≤ i * CHUNK_SIZE + CHUNK_SIZE :=
          min_le_left _ _
      _ = (i + 1) * CHUNK_SIZE := by ring
      _ ≤ j * CHUNK_SIZE := Nat.mul_le_mul_right _ hij
  · intro b hb
    refine ⟨b / CHUNK_SIZE, ?_, ?_, ?_⟩
    · rw [hlen, lt_totalChunks_iff]
      exact lt_of_le_of_lt (Nat.div_mul_le_self b CHUNK_SIZE) hb
    · have hi : b / CHUNK_SIZE < totalChunks L := by
        rw [lt_totalChunks_iff]
        exact lt_of_le_of_lt (Nat.div_mul_le_self b CHUNK_SIZE) hb
      rw [chunkPlan_getD L _ hi]
      exact Nat.div_mul_le_self b CHUNK_SIZE
    · have hi : b / CHUNK_SIZE < totalChunks L := by
        rw [lt_totalChunks_iff]
        exact lt_of_le_of_lt (Nat.div_mul_le_self b CHUNK_SIZE) hb
      rw [chunkPlan_getD L _ hi]
      exact lt_min (lt_div_succ_mul b) hb
  · intro hpos
    rw [hlen] at hpos ⊢
    have hlast : totalChunks L - 1 < totalChunks L := Nat.sub_lt hpos Nat.one_pos
    rw [chunkPlan_getD L _ hlast]
    have hfull : L ≤ (totalChunks L - 1) * CHUNK_SIZE + CHUNK_SIZE := by
      have h1 : (totalChunks L - 1) * CHUNK_SIZE + CHUNK_SIZE = totalChunks L * CHUNK_SIZE := by
        have h2 : totalChunks L - 1 + 1 = totalChunks L := Nat.succ_pred_eq_of_pos hpos
        calc (totalChunks L - 1) * CHUNK_SIZE + CHUNK_SIZE
            = (totalChunks L - 1 + 1) * CHUNK_SIZE := by ring
          _ = totalChunks L * CHUNK_SIZE := by rw [h2]
      rw [h1]; exact le_mul_totalChunks L
    simp only
    exact min_eq_right hfull

/-- Witness for `chunkPlan_spec` at the spec's 12 MiB scenario. -/
theorem chunkPlan_spec_witness :
    1 ≤ 12 * 1024 * 1024 ∧ ChunkPlanOk (12 * 1024 * 1024) :=
  ⟨by norm_num, chunkPlan_spec (12 * 1024 * 1024) (by norm_num)⟩

/-! ## Object validation (`handleFile`) -/

/-- The selected object: `selectedFile.type` (media type), `.size`, `.name`. -/
structure SelectedFile where
  type : String
  size : Nat
  name : String
  deriving DecidableEq, Repr

/-- The 2 GiB ceiling from `handleFile`: `2 * 1024 * 1024 * 1024`. -/
def maxFileSize : Nat := 2 * 1024 * 1024 * 1024

/-- JavaScript `s.startsWith(pre)`: `pre` is a prefix of `s`.  Modelled
over the character list so that concrete instances evaluate in the
kernel. -/
def strStartsWith (s pre : String) : Bool := pre.data.isPrefixOf s.data

/-- Observable outcome of `handleFile`: the `error` state set, the `file`
state set (or cleared), and the number of network calls made by the
handler (`handleFile` performs none; it only mutates local state). -/
structure HandleFileResult where
  error : Option String
  file : Option SelectedFile
  networkCalls : Nat
  deriving DecidableEq, Repr

/-- `handleFile(selectedFile)`: rejects a non-`video/*` media type, then a
size above 2 GiB, else accepts the file and clears the error. -/
def handleFile (f : SelectedFile) : HandleFileResult :=
  if !(strStartsWith f.type "video/") then
    ⟨some "Invalid file type. Please select a video file.", none, 0⟩
  else if f.size > maxFileSize then
    ⟨some "File is too large. The maximum file size is 2GB.", none, 0⟩
  else
    ⟨none, some f, 0⟩

/-- Claim C6: a selected object whose media type is not in the video
category, or whose size exceeds the 2 GiB ceiling, is reported as a
validation error by `handleFile` with no network call made, and the
object is not accepted for upload (the `file` state is cleared). -/
theorem validation_rejects (f : SelectedFile)
    (h : strStartsWith f.type "video/" = false ∨ f.size > maxFileSize) :
    (handleFile f).error.isSome = true ∧
    (handleFile f).file = none ∧
    (handleFile f).networkCalls = 0 := by
  rcases h with h | h
  · simp [handleFile, h]
  · by_cases ht : strStartsWith f.type "video/"
    · simp [handleFile, ht, h]
    · simp [handleFile, ht]

/-- Witness for `validation_rejects`: the spec's 3 GiB scenario. -/
theorem validation_rejects_witness :
    ((3 * 1024 * 1024 * 1024 : Nat) > maxFileSize) ∧
    (handleFile ⟨"video/mp4", 3 * 1024 * 1024 * 1024, "big.mp4"⟩).error.isSome = true ∧
    (handleFile ⟨"video/mp4", 3 * 1024 * 1024 * 1024, "big.mp4"⟩).file = none ∧
    (handleFile ⟨"video/mp4", 3 * 1024 * 1024 * 1024, "big.mp4"⟩).networkCalls = 0 :=
  ⟨by norm_num [maxFileSize],
   validation_rejects ⟨"video/mp4", 3 * 1024 * 1024 * 1024, "big.mp4"⟩
     (Or.inr (by norm_num [maxFileSize]))⟩

/-! ## Upload orchestrator (`uploadFile`) -/

/-- Outcome of a single part transfer (the `PUT` to the pre-signed URL):
`ok` is `res.ok` (2xx class), `etag` is `res.headers.get('ETag')`. -/
structure PartOutcome where
  ok : Bool
  etag : Option String
  deriving DecidableEq, Repr

/-- Default outcome used with `List.getD`. -/
def dfltOutcome : PartOutcome := ⟨true, none⟩

/-- A part transfer is a failure when the response is not 2xx (`!res.ok`)
or the `ETag` header is absent. -/
def partFails (o : PartOutcome) : Bool := !o.ok || o.etag.isNone

/-- The error message thrown for a failed part: `!res.ok` throws
`Upload of part N failed.` first, otherwise the missing tag throws
`ETag not found for part N.`. -/
def partErrorMsg (n : Nat) (o : PartOutcome) : String :=
  if o.ok then "ETag not found for part " ++ toString n ++ "."
  else "Upload of part " ++ toString n ++ " failed."

/-- `etag.replace(/"/g, '')`: strip every double-quote character. -/
def stripQuotes (s : String) : String :=
  ⟨s.data.filter (fun c => c != '"')⟩

/-- The `parts` array of the commit request body: one
`{ PartNumber: i + 1, ETag: etag.replace(/"/g,'') }` entry pushed per
part, in the order `order` in which the part transfers complete. -/
def commitParts (outcomes : List PartOutcome) (order : List Nat) : List (Nat × String) :=
  order.map (fun i => (i + 1, stripQuotes ((outcomes.getD i dfltOutcome).etag.getD "")))

/-- Result of the orchestration: `initError` models the thrown
`Failed to initialize upload.`; `partError` the rejection of
`Promise.all` with the first part error to settle; `committed ps` the
commit request issued to `/api/upload/complete` with `parts: ps`. -/
inductive UploadResult where
  | initError (msg : String)
  | partError (msg : String)
  | committed (parts : List (Nat × String))
  deriving DecidableEq, Repr

/-- Observable trace of one `uploadFile` run: its result, how many
session-initialization requests, part-target negotiations and part
transfers were issued, and whether a commit request was issued. -/
structure RunOutcome where
  result : UploadResult
  initRequests : Nat
  partTargetRequests : Nat
  partTransfers : Nat
  commitIssued : Bool
  deriving DecidableEq, Repr

/-- `uploadFile` as a function of its external interactions: `size` is
`file.size`; `uploadId` the session id extracted from the initialization
response; `outcomes` the per-part transfer outcomes (index `i` is the
0-based part index); `order` the order in which the launched part
transfers settle.  A missing `uploadId` throws before any part work;
otherwise all `totalChunks size` negotiations and transfers are issued,
`Promise.all` rejects with the first failing part in settle order, and
on success the commit request carries the pushed entries in settle
order. -/
def runUpload (size : Nat) (uploadId : Option String)
    (outcomes : List PartOutcome) (order : List Nat) : RunOutcome :=
  match uploadId with
  | none => ⟨.initError "Failed to initialize upload.", 1, 0, 0, false⟩
  | some _ =>
    match order.find? (fun i => partFails (outcomes.getD i dfltOutcome)) with
    | some j =>
      ⟨.partError (partErrorMsg (j + 1) (outcomes.getD j dfltOutcome)),
       1, totalChunks size, totalChunks size, false⟩
    | none =>
      ⟨.committed (commitParts outcomes order),
       1, totalChunks size, totalChunks size, true⟩

/-- Claim C7: when the session-initialization response carries no
`uploadId`, `uploadFile` fails with the initialization error, issues the
initialization request exactly once (no retry), and issues no part-target
negotiation, no part transfer and no commit request. -/
theorem init_failure_aborts (size : Nat) (outcomes : List PartOutcome)
    (order : List Nat) :
    runUpload size none outcomes order =
      ⟨.initError "Failed to initialize upload.", 1, 0, 0, false⟩ := rfl

lemma find?_of_mem_pred {p : Nat → Bool} :
    ∀ {l : List Nat}, (∃ i ∈ l, p i = true) →
      ∃ j, l.find? p = some j ∧ p j = true
  | [], h => absurd h (by simp)
  | a :: l, h => by
    cases ha : p a with
    | true => exact ⟨a, by simp [List.find?, ha], ha⟩
    | false =>
      rcases h with ⟨i, hi, hpi⟩
      rcases List.mem_cons.mp hi with rfl | hil
      · rw [ha] at hpi
        exact absurd hpi (by simp)
      · rcases find?_of_mem_pred ⟨i, hil, hpi⟩ with ⟨j, hj, hpj⟩
        exact ⟨j, by simp [List.find?, ha, hj], hpj⟩

/-- Claim C4: when some part transfer settles with a non-2xx response or
a 2xx response lacking an `ETag`, the whole `uploadFile` run aborts with
the error of the first such part to settle — a message naming that
part's 1-based number — and no commit request is issued. -/
theorem part_failure_aborts (size : Nat) (uid : String)
    (outcomes : List PartOutcome) (order : List Nat)
    (h : ∃ i ∈ order, partFails (outcomes.getD i dfltOutcome) = true) :
    (runUpload size (some uid) outcomes order).commitIssued = false ∧
    ∃ j, partFails (outcomes.getD j dfltOutcome) = true ∧
      (runUpload size (some uid) outcomes order).result =
        .partError (partErrorMsg (j + 1) (outcomes.getD j dfltOutcome)) ∧
      ∃ pre post, partErrorMsg (j + 1) (outcomes.getD j dfltOutcome) =
        pre ++ toString (j + 1) ++ post := by
  rcases find?_of_mem_pred h with ⟨j, hfind, hfail⟩
  have hrun : runUpload size (some uid) outcomes order =
      ⟨.partError (partErrorMsg (j + 1) (outcomes.getD j dfltOutcome)),
       1, totalChunks size, totalChunks size, false⟩ := by
    unfold runUpload
    rw [hfind]
  refine ⟨by rw [hrun], j, hfail, by rw [hrun], ?_⟩
  by_cases hok : (outcomes.getD j dfltOutcome).ok
  · refine ⟨"ETag not found for part ", ".", ?_⟩
    unfold partErrorMsg
    rw [if_pos hok]
  · refine ⟨"Upload of part ", " failed.", ?_⟩
    unfold partErrorMsg
    rw [if_neg hok]

/-- Witness for `part_failure_aborts`: the spec's scenario — part 2 of 3
returns no integrity tag, the run aborts naming part 2, no commit. -/
theorem part_failure_aborts_witness :
    (∃ i ∈ [0, 1, 2],
      partFails ([⟨true, some "a"⟩, ⟨true, none⟩, ⟨true, some "c"⟩].getD i dfltOutcome)
        = true) ∧
    ((runUpload (12 * 1024 * 1024) (some "uid")
        [⟨true, some "a"⟩, ⟨true, none⟩, ⟨true, some "c"⟩] [0, 1, 2]).commitIssued
      = false ∧
     ∃ j, partFails ([⟨true, some "a"⟩, ⟨true, none⟩,
          ⟨true, some "c"⟩].getD j dfltOutcome) = true ∧
       (runUpload (12 * 1024 * 1024) (some "uid")
          [⟨true, some "a"⟩, ⟨true, none⟩, ⟨true, some "c"⟩] [0, 1, 2]).result =
         .partError (partErrorMsg (j + 1)
           ([⟨true, some "a"⟩, ⟨true, none⟩, ⟨true, some "c"⟩].getD j dfltOutcome)) ∧
       ∃ pre post, partErrorMsg (j + 1)
           ([⟨true, some "a"⟩, ⟨true, none⟩, ⟨true, some "c"⟩].getD j dfltOutcome) =
         pre ++ toString (j + 1) ++ post) :=
  ⟨by decide,
   part_failure_aborts (12 * 1024 * 1024) "uid"
     [⟨true, some "a"⟩, ⟨true, none⟩, ⟨true, some "c"⟩] [0, 1, 2] (by decide)⟩

/-- Counterexample to claim C2: a valid 2-part upload (6 MiB object,
`totalChunks = 2`, both transfers succeeding) whose part 2 settles before
part 1 issues a commit request whose entries are in completion order
`[(2, "b"), (1, "a")]` — not ordered by `PartNumber`. -/
theorem commit_order_counterexample :
    totalChunks (6 * 1024 * 1024) = 2 ∧
    List.Perm [1, 0] (List.range 2) ∧
    (∀ i ∈ [1, 0],
      partFails ([⟨true, some "a"⟩, ⟨true, some "b"⟩].getD i dfltOutcome) = false) ∧
    (runUpload (6 * 1024 * 1024) (some "uid")
        [⟨true, some "a"⟩, ⟨true, some "b"⟩] [1, 0]).result =
      .committed [(2, "b"), (1, "a")] ∧
    ¬ List.Sorted (fun p q : Nat × String => p.1 ≤ q.1) [(2, "b"), (1, "a")] := by
  refine ⟨by decide, by decide, by decide, by decide, ?_⟩
  intro hs
  have h2 := List.rel_of_sorted_cons hs (1, "a") (by simp)
  simp at h2

/-- Claim C2 as amended: for every upload in which all part transfers
succeed, the commit request contains exactly one `(PartNumber, ETag)`
entry per part — the entries are a permutation of the per-part entries —
but they appear in the order in which the part transfers complete, which
coincides with `PartNumber` order only when parts complete in ascending
order. -/
theorem commit_entries_amended (size : Nat) (uid : String)
    (outcomes : List PartOutcome) (order : List Nat)
    (hperm : List.Perm order (List.range (totalChunks size)))
    (hok : ∀ i ∈ order, partFails (outcomes.getD i dfltOutcome) = false) :
    (runUpload size (some uid) outcomes order).result =
      .committed (commitParts outcomes order) ∧
    List.Perm (commitParts outcomes order)
      (commitParts outcomes (List.range (totalChunks size))) ∧
    (commitParts outcomes order).map Prod.fst = order.map (· + 1) ∧
    ∀ k, k < totalChunks size →
      ((commitParts outcomes order).map Prod.fst).count (k + 1) = 1 := by
  have hfind : order.find? (fun i => partFails (outcomes.getD i dfltOutcome)) = none := by
    rw [List.find?_eq_none]
    intro i hi
    rw [hok i hi]
    simp
  have hrun : runUpload size (some uid) outcomes order =
      ⟨.committed (commitParts outcomes order),
       1, totalChunks size, totalChunks size, true⟩ := by
    unfold runUpload
    rw [hfind]
  have hmapfst : (commitParts outcomes order).map Prod.fst = order.map (· + 1) := by
    simp [commitParts, List.map_map, Function.comp]
  refine ⟨by rw [hrun], List.Perm.map _ hperm, hmapfst, ?_⟩
  intro k hk
  rw [hmapfst]
  have hpm : List.Perm (order.map (· + 1)) ((List.range (totalChunks size)).map (· + 1)) :=
    List.Perm.map _ hperm
  rw [hpm.count_eq]
  have hinj : Function.Injective (· + 1 : Nat → Nat) := fun a b h => by simpa using h
  have := List.count_map_of_injective (List.range (totalChunks size)) (· + 1) hinj k
  rw [this]
  exact List.count_eq_one_of_mem (List.nodup_range _) (List.mem_range.mpr hk)

/-- Witness for `commit_entries_amended`: a 3-part upload completing in
order 3, 1, 2. -/
theorem commit_entries_amended_witness :
    List.Perm [2, 0, 1] (List.range (totalChunks (12 * 1024 * 1024))) ∧
    ((runUpload (12 * 1024 * 1024) (some "uid")
        [⟨true, some "a"⟩, ⟨true, some "b"⟩, ⟨true, some "c"⟩] [2, 0, 1]).result =
      .committed (commitParts [⟨true, some "a"⟩, ⟨true, some "b"⟩, ⟨true, some "c"⟩]
        [2, 0, 1]) ∧
     List.Perm (commitParts [⟨true, some "a"⟩, ⟨true, some "b"⟩, ⟨true, some "c"⟩]
        [2, 0, 1])
       (commitParts [⟨true, some "a"⟩, ⟨true, some "b"⟩, ⟨true, some "c"⟩]
        (List.range (totalChunks (12 * 1024 * 1024)))) ∧
     (commitParts [⟨true, some "a"⟩, ⟨true, some "b"⟩, ⟨true, some "c"⟩]
        [2, 0, 1]).map Prod.fst = [2, 0, 1].map (· + 1) ∧
     ∀ k, k < totalChunks (12 * 1024 * 1024) →
       ((commitParts [⟨true, some "a"⟩, ⟨true, some "b"⟩, ⟨true, some "c"⟩]
          [2, 0, 1]).map Prod.fst).count (k + 1) = 1) :=
  ⟨by decide,
   commit_entries_amended (12 * 1024 * 1024) "uid"
     [⟨true, some "a"⟩, ⟨true, some "b"⟩, ⟨true, some "c"⟩] [2, 0, 1]
     (by decide) (by decide)⟩

/-- Counterexample to claim C8: `handleFile` accepts a zero-length object
of video media type — only the media-type and the 2 GiB ceiling are
checked — so a length-0 object does reach the partitioning step, where
`totalChunks 0 = 0` and the chunk plan is empty. -/
theorem zero_length_counterexample :
    (handleFile ⟨"video/mp4", 0, "empty.mp4"⟩).error = none ∧
    (handleFile ⟨"video/mp4", 0, "empty.mp4"⟩).file =
      some ⟨"video/mp4", 0, "empty.mp4"⟩ ∧
    totalChunks 0 = 0 ∧
    chunkPlan 0 = [] := by
  refine ⟨?_, ?_, by decide, by decide⟩ <;> decide

/-- Claim C8 as amended: object validation does not reject length 0 — a
zero-length object of accepted media type is accepted, the planner
invoked with `L = 0` yields zero parts, and the upload proceeds to issue
a commit request with an empty part list. -/
theorem zero_length_amended (ty name uid : String)
    (hty : strStartsWith ty "video/" = true) :
    (handleFile ⟨ty, 0, name⟩).error = none ∧
    (handleFile ⟨ty, 0, name⟩).file = some ⟨ty, 0, name⟩ ∧
    (chunkPlan 0).length = totalChunks 0 ∧ totalChunks 0 = 0 ∧
    (runUpload 0 (some uid) [] []).result = .committed [] ∧
    (runUpload 0 (some uid) [] []).commitIssued = true := by
  have h0 : ¬ ((0 : Nat) > maxFileSize) := by norm_num
  refine ⟨?_, ?_, chunkPlan_length 0, by decide, rfl, rfl⟩ <;>
    simp [handleFile, hty, h0]

/-- Witness for `zero_length_amended` at a concrete zero-length file. -/
theorem zero_length_amended_witness :
    (strStartsWith "video/mp4" "video/" = true) ∧
    ((handleFile ⟨"video/mp4", 0, "a.mp4"⟩).error = none ∧
     (handleFile ⟨"video/mp4", 0, "a.mp4"⟩).file = some ⟨"video/mp4", 0, "a.mp4"⟩ ∧
     (chunkPlan 0).length = totalChunks 0 ∧ totalChunks 0 = 0 ∧
     (runUpload 0 (some "uid") [] []).result = .committed [] ∧
     (runUpload 0 (some "uid") [] []).commitIssued = true) :=
  ⟨by decide, zero_length_amended "video/mp4" "a.mp4" "uid" (by decide)⟩

/-! ## Progress aggregation -/

/-- The progress value after `completed` successful part completions out
of `parts` total: the source starts from `setProgress(0)` and each
completion callback runs `setProgress(prev => prev + (1 / totalChunks) * 100)`,
so after `k` completions the value is `k * ((1 / parts) * 100)`.  The
JavaScript number arithmetic is modelled over `ℚ`. -/
def progressAfter (parts completed : Nat) : ℚ :=
  completed * ((1 / (parts : ℚ)) * 100)

/-- Counterexample to claim C3: for a single-part upload the progress
value after the one successful completion is `100`, not `1/partCount = 1`
— the increment is `(1/partCount) * 100` and the value exceeds `1`. -/
theorem progress_counterexample :
    progressAfter 1 1 = 100 ∧
    (1 : ℚ) < progressAfter 1 1 ∧
    progressAfter 1 1 - progressAfter 1 0 ≠ 1 / 1 := by
  norm_num [progressAfter]

/-- The corrected progress invariant for a `parts`-part upload: the value
starts at 0, each successful completion adds exactly `(1/parts) * 100`
(a strict increase), the value is monotone, never exceeds 100, and ends
at 100. -/
def ProgressOk (parts : Nat) : Prop :=
  progressAfter parts 0 = 0 ∧
  (∀ k, progressAfter parts (k + 1) - progressAfter parts k
    = (1 / (parts : ℚ)) * 100) ∧
  (∀ k, progressAfter parts k < progressAfter parts (k + 1)) ∧
  (∀ j k, j ≤ k → progressAfter parts j ≤ progressAfter parts k) ∧
  (∀ k, k ≤ parts → progressAfter parts k ≤ 100) ∧
  progressAfter parts parts = 100

/-- Claim C3 as amended: the observable progress value is a percentage —
it starts at 0, strictly increases by exactly `(1/partCount) * 100` on
each successful part completion, is monotonically non-decreasing, and
never exceeds 100 (not 1). -/
theorem progress_amended (parts : Nat) (h : 0 < parts) : ProgressOk parts := by
  have hne : (parts : ℚ) ≠ 0 := Nat.cast_ne_zero.mpr h.ne'
  have hpos : (0 : ℚ) < (parts : ℚ) := by exact_mod_cast h
  have hstep : ∀ k : Nat, progressAfter parts (k + 1) - progressAfter parts k
      = (1 / (parts : ℚ)) * 100 := by
    intro k
    unfold progressAfter
    push_cast
    ring
  have hstep_pos : (0 : ℚ) < (1 / (parts : ℚ)) * 100 := by positivity
  have hmono : ∀ j k : Nat, j ≤ k →
      progressAfter parts j ≤ progressAfter parts k := by
    intro j k hjk
    unfold progressAfter
    have hj : (j : ℚ) ≤ (k : ℚ) := by exact_mod_cast hjk
    exact mul_le_mul_of_nonneg_right hj (le_of_lt hstep_pos)
  have hfull : progressAfter parts parts = 100 := by
    unfold progressAfter
    field_simp
  refine ⟨by simp [progressAfter], hstep, ?_, hmono, ?_, hfull⟩
  · intro k
    have := hstep k
    linarith
  · intro k hk
    calc progressAfter parts k ≤ progressAfter parts parts := hmono k parts hk
      _ = 100 := hfull

/-- Witness for `progress_amended` with a 3-part upload. -/
theorem progress_amended_witness : 0 < 3 ∧ ProgressOk 3 :=
  ⟨by norm_num, progress_amended 3 (by norm_num)⟩

/-! ## Job status poller (`useEffect` interval over `/api/upload/status`) -/

/-- The task states distinguished by the poller: `data.state`. -/
inductive TaskState where
  | QUEUED
  | PROGRESS
  | SUCCESS
  | FAILURE
  deriving DecidableEq, Repr

/-- The `info` object of a status response; `status` is `data.info.status`
(possibly absent or the empty string, both falsy in JavaScript). -/
structure SInfo where
  status : Option String
  deriving DecidableEq, Repr

/-- One status response `{state, info}`; `info = none` models a response
without an `info` object. -/
structure StatusResponse where
  state : TaskState
  info : Option SInfo
  deriving DecidableEq, Repr

/-- JavaScript `x || fallback` on the `status` field: the fallback is
used when the field is absent or the empty string (falsy). -/
def jsOr (o : Option String) (fallback : String) : String :=
  match o with
  | some s => if s = "" then fallback else s
  | none => fallback

/-- Effect of one tick of the interval handler on a response `r`:
`update msg stop` means `setProcessingStatus(msg)` ran and `stop`
records whether `clearInterval` ran; `noop` means no branch matched
(e.g. `QUEUED`); `typeError` means the handler dereferenced
`data.info.status` with `data.info` absent, throwing before any state
update or `clearInterval`. -/
inductive ObsEffect where
  | update (msg : String) (stop : Bool)
  | noop
  | typeError
  deriving DecidableEq, Repr

/-- The interval handler body: `PROGRESS` surfaces
`data.info.status || 'Processing...'` and keeps polling; `SUCCESS`
surfaces `Processing complete!` and clears the interval; `FAILURE`
surfaces `Processing failed: ` + (`data.info.status || 'Unknown error'`)
and clears the interval; any other state does nothing.  In the
`PROGRESS` and `FAILURE` branches a missing `info` object throws. -/
def observe (r : StatusResponse) : ObsEffect :=
  match r.state, r.info with
  | TaskState.PROGRESS, some i => .update (jsOr i.status "Processing...") false
  | TaskState.PROGRESS, none => .typeError
  | TaskState.SUCCESS, _ => .update "Processing complete!" true
  | TaskState.FAILURE, some i =>
      .update ("Processing failed: " ++ jsOr i.status "Unknown error") true
  | TaskState.FAILURE, none => .typeError
  | TaskState.QUEUED, _ => .noop

/-- Whether the tick on `r` cleared the interval (stopped polling). -/
def stopsAfter (r : StatusResponse) : Bool :=
  match observe r with
  | .update _ true => true
  | _ => false

/-- Number of status queries issued when the backend would answer the
successive ticks with `resps`: every tick queries once, and ticks keep
coming until a tick clears the interval (or the list is exhausted). -/
def pollerQueries : List StatusResponse → Nat
  | [] => 0
  | r :: rs => if stopsAfter r then 1 else 1 + pollerQueries rs

/-- The sequence of status strings surfaced via `setProcessingStatus` over
the run on `resps`, in order. -/
def pollerStatuses : List StatusResponse → List String
  | [] => []
  | r :: rs =>
    match observe r with
    | ObsEffect.update s true => [s]
    | ObsEffect.update s false => s :: pollerStatuses rs
    | ObsEffect.noop => pollerStatuses rs
    | ObsEffect.typeError => pollerStatuses rs

/-- The statuses surfaced by a run of non-stopping observations. -/
def surfacedBefore (pre : List StatusResponse) : List String :=
  pre.filterMap (fun r =>
    match observe r with
    | ObsEffect.update s false => some s
    | _ => none)

/-- The message surfaced at a terminal observation. -/
def terminalMessage (r : StatusResponse) : String :=
  match r.state, r.info with
  | TaskState.SUCCESS, _ => "Processing complete!"
  | TaskState.FAILURE, some i => "Processing failed: " ++ jsOr i.status "Unknown error"
  | _, _ => ""

lemma observe_terminal (t : StatusResponse)
    (ht : t.state = TaskState.SUCCESS ∨
      (t.state = TaskState.FAILURE ∧ t.info.isSome = true)) :
    observe t = .update (terminalMessage t) true := by
  obtain ⟨st, info⟩ := t
  rcases ht with h | ⟨h, hinfo⟩
  · subst h
    cases info <;> rfl
  · subst h
    cases info with
    | none => simp at hinfo
    | some i => rfl

/-- Counterexample to claim C5: a `FAILURE` response without an `info`
object is a terminal observation, yet the handler throws on
`data.info.status` before reaching `clearInterval`, so the poller does
not stop — it issues a further query on the next tick — and surfaces
neither the backend detail nor the generic fallback. -/
theorem poller_terminal_counterexample :
    (⟨TaskState.FAILURE, none⟩ : StatusResponse).state = TaskState.FAILURE ∧
    observe ⟨TaskState.FAILURE, none⟩ = ObsEffect.typeError ∧
    pollerQueries [⟨TaskState.FAILURE, none⟩, ⟨TaskState.QUEUED, none⟩] = 2 ∧
    pollerStatuses [⟨TaskState.FAILURE, none⟩, ⟨TaskState.QUEUED, none⟩] = [] := by
  refine ⟨rfl, rfl, by decide, by decide⟩

/-- Claim C5 as amended: for every sequence of observations whose earlier
elements do not clear the interval and which reaches a terminal
observation that is `SUCCESS`, or `FAILURE` carrying an `info` object,
the poller stops at that observation — no further status query is
issued — and surfaces `Processing complete!` on `SUCCESS`, or
`Processing failed: ` plus the backend detail (or the generic
`Unknown error` fallback) on `FAILURE`.  A `FAILURE` response without an
`info` object instead throws in the handler and polling continues. -/
theorem poller_terminal_amended (pre rest : List StatusResponse)
    (t : StatusResponse)
    (hpre : ∀ r ∈ pre, stopsAfter r = false)
    (ht : t.state = TaskState.SUCCESS ∨
      (t.state = TaskState.FAILURE ∧ t.info.isSome = true)) :
    pollerQueries (pre ++ t :: rest) = pre.length + 1 ∧
    stopsAfter t = true ∧
    pollerStatuses (pre ++ t :: rest) = surfacedBefore pre ++ [terminalMessage t] := by
  have hobs := observe_terminal t ht
  have hstop : stopsAfter t = true := by
    unfold stopsAfter
    rw [hobs]
  induction pre with
  | nil =>
    refine ⟨by simp [pollerQueries, hstop], hstop, ?_⟩
    simp only [List.nil_append, pollerStatuses, hobs, surfacedBefore, List.filterMap_nil,
      List.nil_append]
  | cons r pre ih =>
    have hr : stopsAfter r = false := hpre r (List.mem_cons_self r pre)
    have hpre' : ∀ x ∈ pre, stopsAfter x = false :=
      fun x hx => hpre x (List.mem_cons_of_mem r hx)
    obtain ⟨ihq, _, ihs⟩ := ih hpre'
    refine ⟨?_, hstop, ?_⟩
    · have hq : pollerQueries ((r :: pre) ++ t :: rest)
          = 1 + pollerQueries (pre ++ t :: rest) := by
        simp [pollerQueries, hr]
      rw [hq, ihq, List.length_cons]
      omega
    · have hsurf : surfacedBefore (r :: pre) =
          (match observe r with
           | ObsEffect.update s false => some s
           | _ => none).toList ++ surfacedBefore pre := by
        simp [surfacedBefore, List.filterMap_cons]
        cases hor : observe r with
        | update s b => cases b <;> simp
        | noop => simp
        | typeError => simp
      rw [List.cons_append]
      cases hor : observe r with
      | update s b =>
        cases b with
        | true =>
          exfalso
          have : stopsAfter r = true := by
            unfold stopsAfter
            rw [hor]
          rw [this] at hr
          exact Bool.noConfusion hr
        | false =>
          simp only [pollerStatuses, hor, ihs, hsurf, hor]
          simp
      | noop =>
        simp only [pollerStatuses, hor, ihs, hsurf, hor]
        simp
      | typeError =>
        simp only [pollerStatuses, hor, ihs, hsurf, hor]
        simp

/-- Witness for `poller_terminal_amended`: the spec's scenario —
`PROGRESS {status: "Transcribing"}` then `SUCCESS`; the poller surfaces
"Transcribing" then the completion status, stopping after the second
observation even though a further response would be available. -/
theorem poller_terminal_amended_witness :
    pollerQueries [⟨TaskState.PROGRESS, some ⟨some "Transcribing"⟩⟩,
        ⟨TaskState.SUCCESS, none⟩, ⟨TaskState.QUEUED, none⟩] = 2 ∧
    stopsAfter ⟨TaskState.SUCCESS, none⟩ = true ∧
    pollerStatuses [⟨TaskState.PROGRESS, some ⟨some "Transcribing"⟩⟩,
        ⟨TaskState.SUCCESS, none⟩, ⟨TaskState.QUEUED, none⟩] =
      surfacedBefore [⟨TaskState.PROGRESS, some ⟨some "Transcribing"⟩⟩] ++
        [terminalMessage ⟨TaskState.SUCCESS, none⟩] :=
  poller_terminal_amended [⟨TaskState.PROGRESS, some ⟨some "Transcribing"⟩⟩]
    [⟨TaskState.QUEUED, none⟩] ⟨TaskState.SUCCESS, none⟩
    (by decide) (Or.inl rfl)

/-- Counterexample to claim C9: a `QUEUED` observation, even one carrying
a status detail, surfaces nothing — the handler has no branch for it, so
no status is passed to the caller after that observation. -/
theorem queued_surfaces_nothing_counterexample :
    observe ⟨TaskState.QUEUED, some ⟨some "still queued"⟩⟩ = ObsEffect.noop ∧
    pollerStatuses [⟨TaskState.QUEUED, some ⟨some "still queued"⟩⟩] = [] := by
  exact ⟨rfl, rfl⟩

/-- Claim C9 as amended: the poller surfaces the latest status detail
after `PROGRESS` observations (with the `Processing...` fallback) and at
terminal observations, but a `QUEUED` observation — or any state outside
the three handled branches — surfaces nothing: the handler does not
update the status and simply keeps polling. -/
theorem queued_amended :
    (∀ i : SInfo, observe ⟨TaskState.PROGRESS, some i⟩ =
      ObsEffect.update (jsOr i.status "Processing...") false) ∧
    (∀ o : Option SInfo, observe ⟨TaskState.QUEUED, o⟩ = ObsEffect.noop ∧
      stopsAfter ⟨TaskState.QUEUED, o⟩ = false) ∧
    (∀ o : Option SInfo, ∀ rest : List StatusResponse,
      pollerStatuses (⟨TaskState.QUEUED, o⟩ :: rest) = pollerStatuses rest ∧
      pollerQueries (⟨TaskState.QUEUED, o⟩ :: rest) = 1 + pollerQueries rest) := by
  refine ⟨fun i => rfl, fun o => ?_, fun o rest => ?_⟩
  · cases o <;> exact ⟨rfl, rfl⟩
  · cases o <;> exact ⟨rfl, rfl⟩

/-- Claim C10: when a status response has state `PROGRESS` or `FAILURE`
but no `info` object, the handler dereferences the absent `info` field
and throws instead of surfacing the generic fallback; the fallbacks
(`Processing...`, `Unknown error`) only cover a missing `status` field
inside a present `info` object. -/
theorem info_deref_crash :
    (∀ r : StatusResponse,
      (r.state = TaskState.PROGRESS ∨ r.state = TaskState.FAILURE) →
      r.info = none → observe r = ObsEffect.typeError) ∧
    observe ⟨TaskState.PROGRESS, some ⟨none⟩⟩ =
      ObsEffect.update "Processing..." false ∧
    observe ⟨TaskState.FAILURE, some ⟨none⟩⟩ =
      ObsEffect.update "Processing failed: Unknown error" true := by
  refine ⟨?_, rfl, by decide⟩
  intro r hst hinfo
  obtain ⟨st, info⟩ := r
  simp only at hst hinfo
  subst hinfo
  rcases hst with h | h <;> subst h <;> rfl

/-- Witness for `info_deref_crash`: a concrete `PROGRESS` response with
no `info` object makes the handler throw. -/
theorem info_deref_crash_witness :
    observe ⟨TaskState.PROGRESS, none⟩ = ObsEffect.typeError :=
  info_deref_crash.1 ⟨TaskState.PROGRESS, none⟩ (Or.inl rfl) rfl

end Chronos
